import Mathlib

set_option maxRecDepth 8192

deriving instance DecidableEq for Except

/-!
Verification development for the `nikochiko/dns-server` repository.

The Go sources are shallowly embedded as follows:

* Go byte slices (`[]byte`) become `List Nat`, each entry standing for one
  octet (values < 256 wherever the source writes them, since every write
  goes through an explicit `% 256` byte cast, mirroring Go's `byte(x)`).
* In-place writes into a slice become `listWrite`, which overwrites a
  segment of the list and never changes its length -- exactly the behavior
  of Go's `copy` / `binary.BigEndian.PutUintN` on an in-range destination.
  Where Go would panic on an out-of-range index, `listWrite` silently
  truncates; every theorem below only exercises in-range writes, which the
  source guards for in the same places.
* Go strings become Lean `String`s; one `Char` models one octet (the
  programs under audit only handle ASCII names, where Go's byte-wise
  `len`/`Split` agree with the character-wise view).
* Fallible Go functions returning `(T, error)` become products with an
  `Option DNSError` / `Except DNSError` component.
-/

/-- DNSError collects the error values produced by the Go sources
(`errors.New` / `fmt.Errorf` strings, represented structurally). -/
inductive DNSError where
  /-- "domain name cannot be longer than 255 characters" -/
  | nameTooLong : DNSError
  /-- "buffer too small" -/
  | bufferTooSmall : DNSError
  /-- "label cannot be longer than 63 characters" -/
  | labelTooLong : DNSError
  /-- "invalid opcode %d" -/
  | invalidOpCode (n : Nat) : DNSError
  /-- "invalid response code %d" -/
  | invalidResponseCode (n : Nat) : DNSError
  /-- "argument must be 2 octet long" -/
  | badCodeLength : DNSError
  /-- "unrecognized code: %d" (type code) -/
  | unrecognizedType (n : Nat) : DNSError
  /-- "unsupported/unrecognized class code: %d" -/
  | unrecognizedClass (n : Nat) : DNSError
  /-- decode ran off the end of the buffer (spec-modelled decoder) -/
  | truncated : DNSError
deriving DecidableEq, Repr

/-- listWrite buf pos data overwrites buf starting at pos with data,
keeping the length of buf: the model of Go's `copy(buf[pos:], data)`
(and of in-range indexed assignment, with singleton data). Bytes of
data that do not fit are dropped, as Go's copy does. -/
def listWrite (buf : List Nat) (pos : Nat) (data : List Nat) : List Nat :=
  buf.take pos ++ data.take (buf.length - pos) ++ buf.drop (pos + data.length)

/-- copyCount is the value Go's `copy(buf[pos:], data)` returns: the
number of octets actually copied. -/
def copyCount (buf : List Nat) (pos : Nat) (data : List Nat) : Nat :=
  min data.length (buf.length - pos)

theorem listWrite_length (buf : List Nat) (pos : Nat) (data : List Nat) :
    (listWrite buf pos data).length = buf.length := by
  simp only [listWrite, List.length_append, List.length_take, List.length_drop]
  omega

theorem listWrite_getElem? (buf : List Nat) (pos : Nat) (data : List Nat) (i : Nat) :
    (listWrite buf pos data)[i]? =
      if pos ≤ i ∧ i < pos + data.length ∧ i < buf.length then data[i - pos]?
      else buf[i]? := by
  unfold listWrite
  by_cases h1 : i < pos
  · rw [if_neg (by omega)]
    by_cases h2 : i < buf.length
    · rw [List.getElem?_append_left (by simp [List.length_take]; omega)]
      rw [List.getElem?_append_left (by simp [List.length_take]; omega)]
      rw [List.getElem?_take_of_lt h1]
    · have hb : buf[i]? = none := by
        rw [List.getElem?_eq_none]; omega
      have hl : (buf.take pos ++ data.take (buf.length - pos) ++
          buf.drop (pos + data.length))[i]? = none := by
        rw [List.getElem?_eq_none]
        simp only [List.length_append, List.length_take, List.length_drop]
        omega
      rw [hb, hl]
  · -- pos ≤ i
    by_cases h2 : i < buf.length
    · by_cases h3 : i < pos + data.length
      · rw [if_pos ⟨by omega, h3, h2⟩]
        rw [List.append_assoc]
        rw [List.getElem?_append_right (by simp [List.length_take]; omega)]
        rw [List.getElem?_append_left (by simp [List.length_take]; omega)]
        rw [List.length_take, List.getElem?_take_of_lt (by omega)]
        congr 1
        omega
      · rw [if_neg (by omega)]
        rw [List.append_assoc]
        rw [List.getElem?_append_right (by simp [List.length_take]; omega)]
        rw [List.getElem?_append_right (by simp [List.length_take]; omega)]
        rw [List.getElem?_drop]
        congr 1
        simp only [List.length_take]
        omega
    · rw [if_neg (by omega)]
      have hb : buf[i]? = none := by rw [List.getElem?_eq_none]; omega
      have hl : (buf.take pos ++ data.take (buf.length - pos) ++
          buf.drop (pos + data.length))[i]? = none := by
        rw [List.getElem?_eq_none]
        simp only [List.length_append, List.length_take, List.length_drop]
        omega
      rw [hb, hl]

theorem listWrite_listWrite (buf : List Nat) (pos : Nat) (d1 d2 : List Nat) :
    listWrite (listWrite buf pos d1) (pos + d1.length) d2 =
      listWrite buf pos (d1 ++ d2) := by
  apply List.ext_getElem?
  intro i
  rw [listWrite_getElem?, listWrite_getElem?, listWrite_getElem?, listWrite_length]
  by_cases h1 : pos ≤ i ∧ i < pos + d1.length ∧ i < buf.length
  · rw [if_neg (by simp [List.length_append]; omega), if_pos h1,
      if_pos (by simp [List.length_append]; omega)]
    rw [List.getElem?_append_left (by omega)]
  · by_cases h2 : pos + d1.length ≤ i ∧ i < pos + d1.length + d2.length ∧ i < buf.length
    · rw [if_pos (by omega), if_pos (by simp [List.length_append]; omega)]
      rw [List.getElem?_append_right (by omega)]
      congr 1
      omega
    · rw [if_neg (by omega), if_neg h1, if_neg (by simp [List.length_append]; omega)]

/-! ## Enumerations (src/unnamed/part_001, current revision lines 759-830)

Go declares `DNSMessageType bool`, `OpCode uint8`, `ResponseCode uint8`.
OpCode and ResponseCode values are only ever produced from the named
constants or via the total lookup maps below, so they are modelled as
inductive enumerations carrying their numeric codes. -/

/-- DNSMessageType is Go's `type DNSMessageType bool`. -/
abbrev DNSMessageType := Bool

/-- QRQuery is the Go constant `QRQuery DNSMessageType = false`. -/
def QRQuery : DNSMessageType := false

/-- QRResponse is the Go constant `QRResponse DNSMessageType = true`. -/
def QRResponse : DNSMessageType := true

/-- OpCode models Go's `OpCode uint8` constants QueryOp=0, IQueryOp=1, StatusOp=2. -/
inductive OpCode where
  | QueryOp | IQueryOp | StatusOp
deriving DecidableEq, Repr, Fintype

/-- opCodeToNat gives the uint8 value of each OpCode constant (iota order). -/
def opCodeToNat : OpCode → Nat
  | .QueryOp => 0
  | .IQueryOp => 1
  | .StatusOp => 2

/-- GetOpCodeFromInt models the Go map lookup `opCodeMap[uint8(n)]`.
On a miss Go returns the zero value `OpCode(0)` (= QueryOp) together
with the error, and that pair is what callers assign from. -/
def GetOpCodeFromInt (n : Nat) : OpCode × Option DNSError :=
  match n with
  | 0 => (.QueryOp, none)
  | 1 => (.IQueryOp, none)
  | 2 => (.StatusOp, none)
  | _ => (.QueryOp, some (.invalidOpCode n))

/-- ResponseCode models Go's `ResponseCode uint8` constants NoError=0 .. Refused=5. -/
inductive ResponseCode where
  | NoError | FormatError | ServerFailure | NameError | NotImplemented | Refused
deriving DecidableEq, Repr, Fintype

/-- responseCodeToNat gives the uint8 value of each ResponseCode constant. -/
def responseCodeToNat : ResponseCode → Nat
  | .NoError => 0
  | .FormatError => 1
  | .ServerFailure => 2
  | .NameError => 3
  | .NotImplemented => 4
  | .Refused => 5

/-- GetResponseCodeFromInt models the Go map lookup `responseCodeMap[uint8(n)]`,
returning the zero value NoError together with the error on a miss. -/
def GetResponseCodeFromInt (n : Nat) : ResponseCode × Option DNSError :=
  match n with
  | 0 => (.NoError, none)
  | 1 => (.FormatError, none)
  | 2 => (.ServerFailure, none)
  | 3 => (.NameError, none)
  | 4 => (.NotImplemented, none)
  | 5 => (.Refused, none)
  | _ => (.NoError, some (.invalidResponseCode n))

/-! ## QTYPE / QCLASS (part_001 lines 39-199)

Go's QTYPE is a struct (mnemonic, 2-octet code, meaning) and records and
questions hold pointers to the global descriptors (TypeA, TypeNS, ...):
one descriptor exists per code, so Go pointer equality coincides with
the enumeration equality used here. -/

/-- QTYPE enumerates the global question-type descriptors of the source. -/
inductive QTYPE where
  | A | NS | MD | MF | CNAME | SOA | WKS | PTR | HINFO | MINFO | MX | TXT | ALL
deriving DecidableEq, Repr, Fintype

/-- qtypeValue is the `Value` field of each QTYPE descriptor: its 2-octet
network-order code. -/
def qtypeValue : QTYPE → List Nat
  | .A => [0, 1]
  | .NS => [0, 2]
  | .MD => [0, 3]
  | .MF => [0, 4]
  | .CNAME => [0, 5]
  | .SOA => [0, 6]
  | .WKS => [0, 11]
  | .PTR => [0, 12]
  | .HINFO => [0, 13]
  | .MINFO => [0, 14]
  | .MX => [0, 15]
  | .TXT => [0, 16]
  | .ALL => [0, 255]

/-- bytesToQtype models the Go function of the same name: a 2-octet check,
then `uintToQtypeMap` lookup on the big-endian code. -/
def bytesToQtype (b : List Nat) : Except DNSError QTYPE :=
  if b.length ≠ 2 then .error .badCodeLength
  else
    let code := b.getD 0 0 * 256 + b.getD 1 0
    match code with
    | 1 => .ok .A
    | 2 => .ok .NS
    | 3 => .ok .MD
    | 4 => .ok .MF
    | 5 => .ok .CNAME
    | 6 => .ok .SOA
    | 11 => .ok .WKS
    | 12 => .ok .PTR
    | 13 => .ok .HINFO
    | 14 => .ok .MINFO
    | 15 => .ok .MX
    | 16 => .ok .TXT
    | 255 => .ok .ALL
    | n => .error (.unrecognizedType n)

/-- QCLASS enumerates the single class descriptor ClassIN of the source. -/
inductive QCLASS where
  | IN
deriving DecidableEq, Repr, Fintype

/-- qclassValue is the `Value` field of the class descriptor. -/
def qclassValue : QCLASS → List Nat
  | .IN => [0, 1]

/-- bytesToClass models the Go function of the same name: a 2-octet check,
then only code 1 (IN) is accepted. -/
def bytesToClass (b : List Nat) : Except DNSError QCLASS :=
  if b.length ≠ 2 then .error .badCodeLength
  else
    let code := b.getD 0 0 * 256 + b.getD 1 0
    if code = 1 then .ok .IN else .error (.unrecognizedClass code)

/-! ## DNSHeader (part_001 lines 887-1018) -/

/-- read16 models `binary.BigEndian.Uint16(buf[i:])`: big-endian 16-bit
read. Go panics when fewer than 2 octets remain; the model totalizes
with default 0 (all uses below are on 12-octet headers). -/
def read16 (buf : List Nat) (i : Nat) : Nat :=
  buf.getD i 0 * 256 + buf.getD (i + 1) 0

/-- putUint16 models `binary.BigEndian.PutUint16(buf[pos:], v)`:
writes the two big-endian octets of v (Go's byte casts are `% 256`). -/
def putUint16 (buf : List Nat) (pos v : Nat) : List Nat :=
  listWrite buf pos [v / 256 % 256, v % 256]

/-- putUint32 models `binary.BigEndian.PutUint32(buf[pos:], v)`. -/
def putUint32 (buf : List Nat) (pos v : Nat) : List Nat :=
  listWrite buf pos [v / 16777216 % 256, v / 65536 % 256, v / 256 % 256, v % 256]

/-- DNSHeader mirrors the Go struct field for field. The Go field `Type`
is called `MsgType` here because `Type` is reserved in Lean; the uint16
fields are Nats (kept < 65536 by every reader, since they come from
`read16`). -/
structure DNSHeader where
  ID : Nat
  MsgType : DNSMessageType
  OpCode : OpCode
  IsAuthoritative : Bool
  IsTruncated : Bool
  RecursionDesired : Bool
  RecursionAvailable : Bool
  ResponseCode : ResponseCode
  QuestionsCount : Nat
  AnswersCount : Nat
  NameserversCount : Nat
  AdditionalRecordsCount : Nat
deriving DecidableEq, Repr

/-- zeroHeader is the Go zero value `DNSHeader{}` used by the tests and
by handleUDPPacket before calling ReadFrom. -/
def zeroHeader : DNSHeader :=
  { ID := 0, MsgType := QRQuery, OpCode := .QueryOp, IsAuthoritative := false,
    IsTruncated := false, RecursionDesired := false, RecursionAvailable := false,
    ResponseCode := .NoError, QuestionsCount := 0, AnswersCount := 0,
    NameserversCount := 0, AdditionalRecordsCount := 0 }

/-- parseMsgType reads bit 15 of the flags word (source `parseMsgType`). -/
def parseMsgType (headerBits : Nat) : DNSMessageType :=
  headerBits &&& (1 <<< 15) != 0

/-- parseOpCode extracts bits 14-11 and maps them through the opcode table
(source `parseOpCode`). -/
def parseOpCode (headerBits : Nat) : OpCode × Option DNSError :=
  GetOpCodeFromInt ((headerBits &&& ((1 <<< 14) ||| (1 <<< 13) ||| (1 <<< 12) ||| (1 <<< 11))) >>> 11)

/-- parseAA reads bit 10 (source `parseAA`). -/
def parseAA (headerBits : Nat) : Bool :=
  headerBits &&& (1 <<< 10) != 0

/-- parseTC reads bit 9 (source `parseTC`). -/
def parseTC (headerBits : Nat) : Bool :=
  headerBits &&& (1 <<< 9) != 0

/-- parseRD reads bit 8 (source `parseRD`). -/
def parseRD (headerBits : Nat) : Bool :=
  headerBits &&& (1 <<< 8) != 0

/-- parseRA reads bit 7 (source `parseRA`). -/
def parseRA (headerBits : Nat) : Bool :=
  headerBits &&& (1 <<< 7) != 0

/-- parseRCode extracts bits 3-0 and maps them through the response-code
table (source `parseRCode`). -/
def parseRCode (headerBits : Nat) : ResponseCode × Option DNSError :=
  GetResponseCodeFromInt (headerBits &&& ((1 <<< 3) ||| (1 <<< 2) ||| (1 <<< 1) ||| 1))

/-- bitsFun assembles the 16-bit flags word exactly as the source
`encodeHeaderBits` does, from the individual header fields. -/
def bitsFun (t : DNSMessageType) (op : OpCode) (aa tc rd ra : Bool)
    (rc : ResponseCode) : Nat :=
  let headerBits := 0
  let headerBits := if t = QRResponse then headerBits ||| (1 <<< 15) else headerBits
  let headerBits := headerBits ||| (opCodeToNat op <<< 11)
  let headerBits := if aa then headerBits ||| (1 <<< 10) else headerBits
  let headerBits := if tc then headerBits ||| (1 <<< 9) else headerBits
  let headerBits := if rd then headerBits ||| (1 <<< 8) else headerBits
  let headerBits := if ra then headerBits ||| (1 <<< 7) else headerBits
  headerBits ||| (responseCodeToNat rc &&& ((1 <<< 3) ||| (1 <<< 2) ||| (1 <<< 1) ||| 1))

/-- headerBitsOf is the flags word `encodeHeaderBits` computes for a header. -/
def headerBitsOf (h : DNSHeader) : Nat :=
  bitsFun h.MsgType h.OpCode h.IsAuthoritative h.IsTruncated
    h.RecursionDesired h.RecursionAvailable h.ResponseCode

/-- DNSHeader.encodeHeaderBits models the source method of the same name:
it writes the flags word into the 2-octet destination slice. The caller
passes `buf[2:4]`, modelled by the position argument. -/
def DNSHeader.encodeHeaderBits (h : DNSHeader) (buf : List Nat) (pos : Nat) : List Nat :=
  putUint16 buf pos (headerBitsOf h)

/-- DNSHeader.Encode models the source method: six big-endian 16-bit
writes at offsets 0,2,4,6,8,10, returning (buffer, 12). The Go error
result is always nil and is dropped here. -/
def DNSHeader.Encode (h : DNSHeader) (buf : List Nat) : List Nat × Nat :=
  let buf := putUint16 buf 0 h.ID
  let buf := h.encodeHeaderBits buf 2
  let buf := putUint16 buf 4 h.QuestionsCount
  let buf := putUint16 buf 6 h.AnswersCount
  let buf := putUint16 buf 8 h.NameserversCount
  let buf := putUint16 buf 10 h.AdditionalRecordsCount
  (buf, 12)

/-- DNSHeader.ReadFrom models the source method, including its mutation
order: the receiver is updated field by field and returned as soon as a
parse error occurs, leaving later fields untouched (the named-return
`err` pattern of the Go code). -/
def DNSHeader.ReadFrom (h : DNSHeader) (buf : List Nat) : DNSHeader × Option DNSError :=
  let h := { h with ID := read16 buf 0 }
  let headerBits := read16 buf 2
  let h := { h with MsgType := parseMsgType headerBits }
  let (op, e) := parseOpCode headerBits
  let h := { h with OpCode := op }
  match e with
  | some e => (h, some e)
  | none =>
    let h := { h with IsAuthoritative := parseAA headerBits }
    let h := { h with IsTruncated := parseTC headerBits }
    let h := { h with RecursionDesired := parseRD headerBits }
    let h := { h with RecursionAvailable := parseRA headerBits }
    let (rc, e) := parseRCode headerBits
    let h := { h with ResponseCode := rc }
    match e with
    | some e => (h, some e)
    | none =>
      let h := { h with QuestionsCount := read16 buf 4 }
      let h := { h with AnswersCount := read16 buf 6 }
      let h := { h with NameserversCount := read16 buf 8 }
      let h := { h with AdditionalRecordsCount := read16 buf 10 }
      (h, none)

/-! ## Domain-name codec (part_001 lines 201-228; decoder spec-modelled)

Names are Lean strings; `splitOnDot` models Go's `strings.Split(name, ".")`
for the one-character separator "." at the level of the char list. -/

/-- splitOnDot models `strings.Split(s, ".")`: splits at every dot and
keeps empty segments, returning at least one segment (Go returns [""]
for the empty string). -/
def splitOnDot : List Char → List (List Char)
  | [] => [[]]
  | c :: rest =>
    if c = '.' then [] :: splitOnDot rest
    else
      match splitOnDot rest with
      | [] => [[c]]
      | l :: ls => (c :: l) :: ls

/-- joinDot is the inverse of splitOnDot: rejoins segments with a dot
between consecutive segments ('.'-intercalation). -/
def joinDot : List (List Char) → List Char
  | [] => []
  | l :: ls =>
    match ls with
    | [] => l
    | _ :: _ => l ++ '.' :: joinDot ls

/-- labelBytes is the octet content of a label (one Char = one octet). -/
def labelBytes (label : List Char) : List Nat :=
  label.map Char.toNat

/-- flatEnc is the wire form of a label sequence without the final root
terminator: for each label a length octet then its content octets. An
empty label contributes a single zero octet. -/
def flatEnc (labels : List (List Char)) : List Nat :=
  (labels.map fun label => label.length % 256 :: labelBytes label).flatten

/-- encodeLabelsLoop mirrors the body of the `for _, label := range labels`
loop in EncodeDomainName: each iteration checks the 63-octet bound, writes
the length octet (Go `byte(len(label))`, hence `% 256`), then copies the
label content. The copy counts `len(label)` octets because the source
copies into the exact-size window `buf[written:written+len(label)]`
(whose in-range slicing the earlier buffer-size guard ensures). -/
def encodeLabelsLoop (labels : List (List Char)) (buf : List Nat) (written : Nat) :
    List Nat × Nat × Option DNSError :=
  match labels with
  | [] => (buf, written, none)
  | label :: rest =>
    if label.length > 63 then (buf, written, some .labelTooLong)
    else
      let buf := listWrite buf written [label.length % 256]
      let written := written + 1
      let buf := listWrite buf written (labelBytes label)
      let written := written + label.length
      encodeLabelsLoop rest buf written

/-- EncodeDomainName models the source function: the 255-octet name check
and the name+2 buffer check come first (before any write), then the label
loop, then the root terminator octet. -/
def EncodeDomainName (buf : List Nat) (name : String) : List Nat × Nat × Option DNSError :=
  if name.length > 255 then (buf, 0, some .nameTooLong)
  else if buf.length < name.length + 2 then (buf, 0, some .bufferTooSmall)
  else
    let labels := splitOnDot name.data
    match encodeLabelsLoop labels buf 0 with
    | (buf, written, some e) => (buf, written, some e)
    | (buf, written, none) =>
      let buf := listWrite buf written [0]
      (buf, written + 1, none)

/-- decodeLabels reads length-prefixed labels until a zero-length
terminator, returning the number of octets consumed and the label
contents (spec-modelled, see DecodeDomainName). -/
def decodeLabels : List Nat → Except DNSError (Nat × List (List Nat))
  | [] => .error .truncated
  | len :: rest =>
    if len = 0 then .ok (1, [])
    else if rest.length < len then .error .truncated
    else
      match decodeLabels (rest.drop len) with
      | .error e => .error e
      | .ok (n, labels) => .ok (1 + len + n, rest.take len :: labels)
termination_by buf => buf.length
decreasing_by simp [List.length_drop]; omega

/-- Modelled from the spec: `DecodeDomainName` is called by
ReadQuestionFrom but its definition is not among the provided sources.
Spec section 4.2: "decode(buf) -> (bytesRead, name) | Error: reads
length-prefixed labels until a zero-length terminator; reassembles with
'.' separators". -/
def DecodeDomainName (buf : List Nat) : Except DNSError (Nat × String) :=
  match decodeLabels buf with
  | .error e => .error e
  | .ok (bytesRead, labels) =>
    .ok (bytesRead, String.mk (joinDot (labels.map fun l => l.map Char.ofNat)))

/-! ## Resource records, questions, server (part_001 lines 10-37, 832-880, 1073-1224) -/

/-- ResourceRecord mirrors the Go struct; the Go field `Type` is `Typ`
here (`Type` is reserved in Lean). Go stores pointers to the global
QTYPE/QCLASS descriptors; the enumerations model descriptor identity. -/
structure ResourceRecord where
  Name : String
  Typ : QTYPE
  Class : QCLASS
  TTL : Nat
  Value : List Nat
deriving DecidableEq, Repr

/-- ResourceRecord.Encode models the source method: encoded name, 2-octet
type code, 2-octet class code, 4-octet TTL, 2-octet value length
(`uint16(len(rr.Value))`, hence `% 65536`), then the value octets. The
final `copy(buf[nWritten:], rr.Value)` of the source does not advance
`nWritten`, and neither does the model. -/
def ResourceRecord.Encode (rr : ResourceRecord) (buf : List Nat) :
    List Nat × Nat × Option DNSError :=
  match EncodeDomainName buf rr.Name with
  | (buf, nWritten, some e) => (buf, nWritten, some e)
  | (buf, nWritten, none) =>
    let n := copyCount buf nWritten (qtypeValue rr.Typ)
    let buf := listWrite buf nWritten (qtypeValue rr.Typ)
    let nWritten := nWritten + n
    let n := copyCount buf nWritten (qclassValue rr.Class)
    let buf := listWrite buf nWritten (qclassValue rr.Class)
    let nWritten := nWritten + n
    let buf := putUint32 buf nWritten rr.TTL
    let nWritten := nWritten + 4
    let buf := putUint16 buf nWritten (rr.Value.length % 65536)
    let nWritten := nWritten + 2
    let buf := listWrite buf nWritten rr.Value
    (buf, nWritten, none)

/-- Question mirrors the Go struct (field `Type` renamed to `Typ`). -/
structure Question where
  Name : String
  Typ : QTYPE
  Class : QCLASS
deriving DecidableEq, Repr

/-- Question.Encode models the source method: encoded name, then the
type and class code octets (each `copy` advances by its return value). -/
def Question.Encode (q : Question) (buf : List Nat) : List Nat × Nat × Option DNSError :=
  match EncodeDomainName buf q.Name with
  | (buf, wlen, some e) => (buf, wlen, some e)
  | (buf, wlen, none) =>
    let n := copyCount buf wlen (qtypeValue q.Typ)
    let buf := listWrite buf wlen (qtypeValue q.Typ)
    let wlen := wlen + n
    let n := copyCount buf wlen (qclassValue q.Class)
    let buf := listWrite buf wlen (qclassValue q.Class)
    let wlen := wlen + n
    (buf, wlen, none)

/-- ReadQuestionFrom models the source function: domain-name decode, then
the 2-octet type and class codes read from `buf[bytesRead:bytesRead+2]`. -/
def ReadQuestionFrom (buf : List Nat) : Nat × Except DNSError Question :=
  match DecodeDomainName buf with
  | .error e => (0, .error e)
  | .ok (bytesRead, name) =>
    match bytesToQtype ((buf.drop bytesRead).take 2) with
    | .error e => (bytesRead, .error e)
    | .ok qtype =>
      let bytesRead := bytesRead + 2
      match bytesToClass ((buf.drop bytesRead).take 2) with
      | .error e => (bytesRead, .error e)
      | .ok qclass =>
        (bytesRead + 2, .ok { Name := name, Typ := qtype, Class := qclass })

/-- DNSServer mirrors the Go struct (listen address and record table). -/
structure DNSServer where
  laddr : String
  records : List ResourceRecord

/-- strToLower models Go's `strings.ToLower` at the char level (it agrees
with Go on ASCII, which is all the server handles). -/
def strToLower (s : String) : String :=
  String.mk (s.data.map Char.toLower)

/-- strHasSuffix models Go's `strings.HasSuffix`. -/
def strHasSuffix (s sfx : String) : Bool :=
  sfx.data.isSuffixOf s.data

/-- lookupRecordsLoop mirrors the `for _, r := range srv.records` loop of
LookupRecords: return the first record matching on descriptor identity
for type and class and on case-folded name equality. -/
def lookupRecordsLoop (records : List ResourceRecord) (recordType : QTYPE)
    (recordClass : QCLASS) (name : String) : Option ResourceRecord :=
  match records with
  | [] => none
  | r :: rest =>
    if r.Typ = recordType ∧ r.Class = recordClass ∧ strToLower r.Name = strToLower name
    then some r
    else lookupRecordsLoop rest recordType recordClass name

/-- DNSServer.LookupRecords models the source method (current revision,
lines 1073-1081): an in-order scan of the record table. -/
def DNSServer.LookupRecords (srv : DNSServer) (recordType : QTYPE)
    (recordClass : QCLASS) (name : String) : Option ResourceRecord :=
  lookupRecordsLoop srv.records recordType recordClass name

/-- setDefaultResponseHeaders models the source method: it marks the
header as a response and clears RA/TC/AA. -/
def setDefaultResponseHeaders (h : DNSHeader) : DNSHeader :=
  { h with
    MsgType := QRResponse
    RecursionAvailable := false
    IsTruncated := false
    IsAuthoritative := false }

/-- DNSServer.GetAnswers models the source method: authoritativeness is a
case-insensitive suffix test against the hard-coded zone apex
"kausm.in"; a found record yields a one-element answer list; authority
and additional sections are always nil. -/
def DNSServer.GetAnswers (srv : DNSServer) (q : Question) :
    List ResourceRecord × List ResourceRecord × List ResourceRecord × Bool :=
  let isAuthoritative := strHasSuffix (strToLower q.Name) "kausm.in"
  let answer := srv.LookupRecords q.Typ q.Class q.Name
  let answers := match answer with
    | some a => [a]
    | none => []
  (answers, [], [], isAuthoritative)

/-- encodeQuestionSection mirrors the `for _, q := range questions` loop
of RespondToUDP: each question is encoded into the tail `buf[bw:]` of the
shared buffer (in-place subslice write) and the first error aborts. -/
def encodeQuestionSection : List Question → List Nat → Nat →
    Except DNSError (List Nat × Nat)
  | [], buf, bw => .ok (buf, bw)
  | q :: qs, buf, bw =>
    match q.Encode (buf.drop bw) with
    | (_, _, some e) => .error e
    | (sub, n, none) => encodeQuestionSection qs (buf.take bw ++ sub) (bw + n)

/-- encodeRRSection mirrors the three `for _, rr := range ...` loops of
RespondToUDP over a resource-record section. -/
def encodeRRSection : List ResourceRecord → List Nat → Nat →
    Except DNSError (List Nat × Nat)
  | [], buf, bw => .ok (buf, bw)
  | rr :: rrs, buf, bw =>
    match rr.Encode (buf.drop bw) with
    | (_, _, some e) => .error e
    | (sub, n, none) => encodeRRSection rrs (buf.take bw ++ sub) (bw + n)

/-- DNSServer.RespondToUDP models the source method (lines 1168-1224)
without the network write: the four section counts are overwritten from
the argument lists (`uint16(len(..))`, hence `% 65536`), a fresh 512-octet
buffer is filled with the header and the four sections, and on success the
datagram `buf[:bytesWritten]` handed to `conn.WriteTo` is returned along
with the mutated header. Any encoder error is propagated and nothing is
sent. -/
def DNSServer.RespondToUDP (_srv : DNSServer) (headers : DNSHeader)
    (questions : List Question) (answers nameservers additionalRecords : List ResourceRecord) :
    Except DNSError (DNSHeader × List Nat) :=
  let headers := { headers with
    QuestionsCount := questions.length % 65536
    AnswersCount := answers.length % 65536
    NameserversCount := nameservers.length % 65536
    AdditionalRecordsCount := additionalRecords.length % 65536 }
  let buf := List.replicate 512 0
  let (buf, bytesWritten) := headers.Encode buf
  match encodeQuestionSection questions buf bytesWritten with
  | .error e => .error e
  | .ok (buf, bytesWritten) =>
    match encodeRRSection answers buf bytesWritten with
    | .error e => .error e
    | .ok (buf, bytesWritten) =>
      match encodeRRSection nameservers buf bytesWritten with
      | .error e => .error e
      | .ok (buf, bytesWritten) =>
        match encodeRRSection additionalRecords buf bytesWritten with
        | .error e => .error e
        | .ok (buf, bytesWritten) =>
          .ok (headers, buf.take bytesWritten)

/-- questionsLoop mirrors the `for qi := 0; qi < QuestionsCount; qi++`
loop of handleUDPPacket: reads one question per iteration from the
request buffer, accumulates questions/answers/nameservers/additionals,
records authoritativeness, and switches the response code to NameError
when an authoritative lookup finds nothing. A read error makes the
handler return without responding (`none`). -/
def questionsLoop (srv : DNSServer) (buf : List Nat) :
    Nat → Nat → DNSHeader → List Question → List ResourceRecord →
    List ResourceRecord → List ResourceRecord →
    Option (DNSHeader × List Question × List ResourceRecord ×
      List ResourceRecord × List ResourceRecord)
  | _, 0, headers, qs, ans, nss, ads => some (headers, qs, ans, nss, ads)
  | rlen, remaining + 1, headers, qs, ans, nss, ads =>
    match ReadQuestionFrom (buf.drop rlen) with
    | (_, .error _) => none
    | (bytesRead, .ok q) =>
      let (ansi, nssi, adsi, isAuthoritative) := srv.GetAnswers q
      let headers := { headers with IsAuthoritative := isAuthoritative }
      let headers :=
        if isAuthoritative ∧ ansi.length = 0
        then { headers with ResponseCode := .NameError }
        else headers
      questionsLoop srv buf (rlen + bytesRead) remaining headers
        (qs ++ [q]) (ans ++ ansi) (nss ++ nssi) (ads ++ adsi)

/-- DNSServer.handleUDPPacket models the source handler (lines 1090-1152)
with the transport stripped: the result is the datagram the server sends
back, or none when it sends nothing (header read error, question read
error, or a response-encoding error). -/
def DNSServer.handleUDPPacket (srv : DNSServer) (buf : List Nat) : Option (List Nat) :=
  match DNSHeader.ReadFrom zeroHeader buf with
  | (_, some _) => none
  | (headers, none) =>
    let rlen := 12
    let headers := setDefaultResponseHeaders headers
    if headers.MsgType ≠ QRQuery ∨ headers.OpCode ≠ .QueryOp then
      let headers := { headers with ResponseCode := .NotImplemented, AnswersCount := 0 }
      match srv.RespondToUDP headers [] [] [] [] with
      | .error _ => none
      | .ok (_, dgram) => some dgram
    else
      match questionsLoop srv buf rlen headers.QuestionsCount headers [] [] [] [] with
      | none => none
      | some (headers, qs, ans, nss, ads) =>
        match srv.RespondToUDP headers qs ans nss ads with
        | .error _ => none
        | .ok (_, dgram) => some dgram

/-! ## Domain-name codec lemmas -/

theorem splitOnDot_ne_nil (s : List Char) : splitOnDot s ≠ [] := by
  match s with
  | [] => simp [splitOnDot]
  | c :: rest =>
    unfold splitOnDot
    by_cases h : c = '.'
    · simp [h]
    · simp only [h, if_false]
      cases splitOnDot rest <;> simp

theorem joinDot_cons_cons (l l2 : List Char) (ls : List (List Char)) :
    joinDot (l :: l2 :: ls) = l ++ '.' :: joinDot (l2 :: ls) := rfl

theorem joinDot_splitOnDot (s : List Char) : joinDot (splitOnDot s) = s := by
  induction s with
  | nil => simp [splitOnDot, joinDot]
  | cons c rest ih =>
    unfold splitOnDot
    by_cases h : c = '.'
    · simp only [h, if_true]
      cases hsp : splitOnDot rest with
      | nil => exact absurd hsp (splitOnDot_ne_nil rest)
      | cons l ls =>
        rw [hsp] at ih
        rw [joinDot_cons_cons]
        simp [ih]
    · simp only [h, if_false]
      cases hsp : splitOnDot rest with
      | nil => exact absurd hsp (splitOnDot_ne_nil rest)
      | cons l ls =>
        rw [hsp] at ih
        cases ls with
        | nil =>
          simp only [joinDot] at ih ⊢
          rw [ih]
        | cons l2 ls2 =>
          rw [joinDot_cons_cons] at ih
          rw [joinDot_cons_cons]
          rw [List.cons_append, ih]

theorem flatEnc_nil : flatEnc [] = [] := rfl

theorem flatEnc_cons (l : List Char) (ls : List (List Char)) :
    flatEnc (l :: ls) = (l.length % 256 :: labelBytes l) ++ flatEnc ls := by
  simp [flatEnc]

theorem flatEnc_length_eq (s : List Char) :
    (flatEnc (splitOnDot s)).length = s.length + 1 := by
  induction s with
  | nil => simp [splitOnDot, flatEnc, labelBytes]
  | cons c rest ih =>
    unfold splitOnDot
    by_cases h : c = '.'
    · simp only [h, if_true]
      rw [flatEnc_cons]
      simp only [List.length_append, List.length_cons, labelBytes, List.length_map,
        List.length_nil]
      omega
    · simp only [h, if_false]
      cases hsp : splitOnDot rest with
      | nil => exact absurd hsp (splitOnDot_ne_nil rest)
      | cons l ls =>
        rw [hsp] at ih
        rw [flatEnc_cons] at ih
        rw [flatEnc_cons]
        simp only [List.length_append, List.length_cons, labelBytes, List.length_map] at ih ⊢
        omega

theorem encodeLabelsLoop_ok (labels : List (List Char)) (buf : List Nat) (w : Nat)
    (h63 : ∀ l ∈ labels, l.length ≤ 63) :
    encodeLabelsLoop labels buf w =
      (listWrite buf w (flatEnc labels), w + (flatEnc labels).length, none) := by
  induction labels generalizing buf w with
  | nil => simp [encodeLabelsLoop, flatEnc, listWrite]
  | cons l rest ih =>
    have hl : l.length ≤ 63 := h63 l (by simp)
    unfold encodeLabelsLoop
    rw [if_neg (by omega)]
    have hrest : ∀ x ∈ rest, x.length ≤ 63 := fun x hx => h63 x (by simp [hx])
    rw [ih _ _ hrest]
    have hcomp1 : listWrite (listWrite buf w [l.length % 256]) (w + 1) (labelBytes l) =
        listWrite buf w ([l.length % 256] ++ labelBytes l) := by
      have := listWrite_listWrite buf w [l.length % 256] (labelBytes l)
      simpa using this
    rw [hcomp1]
    have hcomp2 : listWrite (listWrite buf w ([l.length % 256] ++ labelBytes l))
        (w + 1 + l.length) (flatEnc rest) =
        listWrite buf w (([l.length % 256] ++ labelBytes l) ++ flatEnc rest) := by
      have := listWrite_listWrite buf w ([l.length % 256] ++ labelBytes l) (flatEnc rest)
      simp only [List.length_append, List.length_cons, List.length_nil, labelBytes,
        List.length_map] at this
      have harith : w + (1 + l.length) = w + 1 + l.length := by omega
      rw [← harith]
      exact this
    rw [hcomp2]
    rw [show (([l.length % 256] ++ labelBytes l) ++ flatEnc rest) = flatEnc (l :: rest) by
      simp [flatEnc_cons]]
    rw [show w + 1 + l.length + (flatEnc rest).length = w + (flatEnc (l :: rest)).length by
      simp only [flatEnc_cons, List.length_append, List.length_cons, labelBytes,
        List.length_map]
      omega]

theorem encodeDomainName_ok (buf : List Nat) (name : String)
    (h255 : name.length ≤ 255)
    (h63 : ∀ l ∈ splitOnDot name.data, l.length ≤ 63)
    (hbuf : name.length + 2 ≤ buf.length) :
    EncodeDomainName buf name =
      (listWrite buf 0 (flatEnc (splitOnDot name.data) ++ [0]), name.length + 2, none) := by
  unfold EncodeDomainName
  rw [if_neg (by omega), if_neg (by omega)]
  have hloop := encodeLabelsLoop_ok (splitOnDot name.data) buf 0 h63
  simp only [hloop]
  have hflat : (flatEnc (splitOnDot name.data)).length = name.length + 1 := by
    rw [flatEnc_length_eq]
    rfl
  have hcomp : listWrite (listWrite buf 0 (flatEnc (splitOnDot name.data)))
      (0 + (flatEnc (splitOnDot name.data)).length) [0] =
      listWrite buf 0 (flatEnc (splitOnDot name.data) ++ [0]) :=
    listWrite_listWrite buf 0 (flatEnc (splitOnDot name.data)) [0]
  rw [hcomp, hflat]
  norm_num

theorem labelBytes_length (l : List Char) : (labelBytes l).length = l.length := by
  simp [labelBytes]

theorem decodeLabels_flatEnc (labels : List (List Char)) (junk : List Nat)
    (hval : ∀ l ∈ labels, 0 < l.length ∧ l.length ≤ 63) :
    decodeLabels (flatEnc labels ++ 0 :: junk) =
      .ok ((flatEnc labels).length + 1, labels.map labelBytes) := by
  induction labels with
  | nil =>
    simp only [flatEnc_nil, List.nil_append, List.length_nil, List.map_nil]
    simp [decodeLabels]
  | cons l rest ih =>
    have hl := hval l (by simp)
    have hrest : ∀ x ∈ rest, 0 < x.length ∧ x.length ≤ 63 :=
      fun x hx => hval x (by simp [hx])
    rw [flatEnc_cons]
    have hmod : l.length % 256 = l.length := Nat.mod_eq_of_lt (by omega)
    have hshape : ((l.length % 256 :: labelBytes l) ++ flatEnc rest) ++ 0 :: junk =
        l.length :: (labelBytes l ++ (flatEnc rest ++ 0 :: junk)) := by
      simp [hmod]
    rw [hshape]
    unfold decodeLabels
    rw [if_neg (by omega)]
    rw [if_neg (by simp only [List.length_append, labelBytes_length, List.length_cons]; omega)]
    have hdrop : (labelBytes l ++ (flatEnc rest ++ 0 :: junk)).drop l.length =
        flatEnc rest ++ 0 :: junk := by
      rw [← labelBytes_length l]
      exact List.drop_left _ _
    have htake : (labelBytes l ++ (flatEnc rest ++ 0 :: junk)).take l.length =
        labelBytes l := by
      rw [← labelBytes_length l]
      exact List.take_left _ _
    rw [hdrop, htake, ih hrest]
    simp only [Except.ok.injEq, Prod.mk.injEq, List.map_cons]
    refine ⟨?_, trivial⟩
    simp only [List.length_cons, List.length_append, labelBytes_length]
    omega

theorem map_ofNat_labelBytes (l : List Char) :
    (labelBytes l).map Char.ofNat = l := by
  simp only [labelBytes, List.map_map]
  have : (Char.ofNat ∘ Char.toNat) = id := by
    funext c
    simp [Function.comp, Char.ofNat_toNat]
  rw [this, List.map_id]

/-- decodeDomainName_encode is the domain-name round trip at the level of
raw buffers: decoding a buffer that starts with the wire form of a valid
name recovers the name and consumes exactly its octets. -/
theorem decodeDomainName_encode (name : String) (junk : List Nat)
    (hval : ∀ l ∈ splitOnDot name.data, 0 < l.length ∧ l.length ≤ 63) :
    DecodeDomainName ((flatEnc (splitOnDot name.data) ++ [0]) ++ junk) =
      .ok (name.length + 2, name) := by
  unfold DecodeDomainName
  have hshape : (flatEnc (splitOnDot name.data) ++ [0]) ++ junk =
      flatEnc (splitOnDot name.data) ++ 0 :: junk := by
    simp
  rw [hshape, decodeLabels_flatEnc _ _ hval]
  have hlen : (flatEnc (splitOnDot name.data)).length + 1 = name.length + 2 := by
    rw [flatEnc_length_eq]
    rfl
  have hname : String.mk (joinDot (((splitOnDot name.data).map labelBytes).map
      fun l => l.map Char.ofNat)) = name := by
    have hmaps : ((splitOnDot name.data).map labelBytes).map
        (fun l => l.map Char.ofNat) = splitOnDot name.data := by
      rw [List.map_map]
      have : ((fun l => l.map Char.ofNat) ∘ labelBytes) = id := by
        funext l
        simp [Function.comp, map_ofNat_labelBytes]
      rw [this, List.map_id]
    rw [hmaps, joinDot_splitOnDot]
  simp only [hlen, hname]

/-! ## Header codec lemmas -/

theorem listWrite_chain (buf : List Nat) (p : Nat) (d1 d2 : List Nat) (q : Nat)
    (hq : q = p + d1.length) :
    listWrite (listWrite buf p d1) q d2 = listWrite buf p (d1 ++ d2) := by
  subst hq
  exact listWrite_listWrite buf p d1 d2

theorem listWrite_zero (buf data : List Nat) (h : data.length ≤ buf.length) :
    listWrite buf 0 data = data ++ buf.drop data.length := by
  simp only [listWrite, List.take_zero, List.nil_append, Nat.zero_add, Nat.sub_zero]
  rw [List.take_of_length_le h]

theorem bitsFun_roundtrip : ∀ (t : DNSMessageType) (op : OpCode) (aa tc rd ra : Bool)
    (rc : ResponseCode),
    parseMsgType (bitsFun t op aa tc rd ra rc) = t ∧
    parseOpCode (bitsFun t op aa tc rd ra rc) = (op, none) ∧
    parseAA (bitsFun t op aa tc rd ra rc) = aa ∧
    parseTC (bitsFun t op aa tc rd ra rc) = tc ∧
    parseRD (bitsFun t op aa tc rd ra rc) = rd ∧
    parseRA (bitsFun t op aa tc rd ra rc) = ra ∧
    parseRCode (bitsFun t op aa tc rd ra rc) = (rc, none) := by
  decide

theorem bitsFun_lt : ∀ (t : DNSMessageType) (op : OpCode) (aa tc rd ra : Bool)
    (rc : ResponseCode), bitsFun t op aa tc rd ra rc < 65536 := by
  decide

theorem encode_bytes (h : DNSHeader) (buf : List Nat) (hlen : 12 ≤ buf.length) :
    (h.Encode buf).1 =
      h.ID / 256 % 256 :: h.ID % 256 ::
      headerBitsOf h / 256 % 256 :: headerBitsOf h % 256 ::
      h.QuestionsCount / 256 % 256 :: h.QuestionsCount % 256 ::
      h.AnswersCount / 256 % 256 :: h.AnswersCount % 256 ::
      h.NameserversCount / 256 % 256 :: h.NameserversCount % 256 ::
      h.AdditionalRecordsCount / 256 % 256 :: h.AdditionalRecordsCount % 256 ::
      buf.drop 12 := by
  unfold DNSHeader.Encode DNSHeader.encodeHeaderBits putUint16
  dsimp only
  rw [listWrite_chain _ _ _ _ _ (by simp)]
  rw [listWrite_chain _ _ _ _ _ (by simp)]
  rw [listWrite_chain _ _ _ _ _ (by simp)]
  rw [listWrite_chain _ _ _ _ _ (by simp)]
  rw [listWrite_chain _ _ _ _ _ (by simp)]
  rw [listWrite_zero _ _ (by simp; omega)]
  simp

theorem headerBits_roundtrip (h : DNSHeader) :
    parseMsgType (headerBitsOf h) = h.MsgType ∧
    parseOpCode (headerBitsOf h) = (h.OpCode, none) ∧
    parseAA (headerBitsOf h) = h.IsAuthoritative ∧
    parseTC (headerBitsOf h) = h.IsTruncated ∧
    parseRD (headerBitsOf h) = h.RecursionDesired ∧
    parseRA (headerBitsOf h) = h.RecursionAvailable ∧
    parseRCode (headerBitsOf h) = (h.ResponseCode, none) :=
  bitsFun_roundtrip h.MsgType h.OpCode h.IsAuthoritative h.IsTruncated
    h.RecursionDesired h.RecursionAvailable h.ResponseCode

theorem headerBitsOf_lt (h : DNSHeader) : headerBitsOf h < 65536 :=
  bitsFun_lt h.MsgType h.OpCode h.IsAuthoritative h.IsTruncated
    h.RecursionDesired h.RecursionAvailable h.ResponseCode

/-- readFrom_encode is the header round trip: reading back the 12 octets
Encode wrote (into a fresh zero header, as the source tests do) recovers
every field of a well-formed header. -/
theorem readFrom_encode (h : DNSHeader) (buf : List Nat)
    (hid : h.ID < 65536) (hqc : h.QuestionsCount < 65536)
    (hac : h.AnswersCount < 65536) (hnc : h.NameserversCount < 65536)
    (hadc : h.AdditionalRecordsCount < 65536) (hlen : 12 ≤ buf.length) :
    DNSHeader.ReadFrom zeroHeader (h.Encode buf).1 = (h, none) := by
  obtain ⟨hmt, hop, haa, htc, hrd, hra, hrc⟩ := headerBits_roundtrip h
  have hwlt := headerBitsOf_lt h
  rw [encode_bytes h buf hlen]
  unfold DNSHeader.ReadFrom
  dsimp only
  simp only [read16, List.getD_cons_zero, List.getD_cons_succ]
  rw [show h.ID / 256 % 256 * 256 + h.ID % 256 = h.ID by omega]
  rw [show headerBitsOf h / 256 % 256 * 256 + headerBitsOf h % 256 = headerBitsOf h by
    omega]
  rw [show h.QuestionsCount / 256 % 256 * 256 + h.QuestionsCount % 256 =
    h.QuestionsCount by omega]
  rw [show h.AnswersCount / 256 % 256 * 256 + h.AnswersCount % 256 = h.AnswersCount by
    omega]
  rw [show h.NameserversCount / 256 % 256 * 256 + h.NameserversCount % 256 =
    h.NameserversCount by omega]
  rw [show h.AdditionalRecordsCount / 256 % 256 * 256 + h.AdditionalRecordsCount % 256 =
    h.AdditionalRecordsCount by omega]
  rw [hmt, hop, haa, htc, hrd, hra, hrc]

/-! ## Claim C8 helper -/

theorem lookupRecordsLoop_eq_find? (records : List ResourceRecord) (t : QTYPE)
    (c : QCLASS) (name : String) :
    lookupRecordsLoop records t c name =
      records.find? fun r =>
        decide (r.Typ = t) && decide (r.Class = c) &&
        decide (strToLower r.Name = strToLower name) := by
  induction records with
  | nil => rfl
  | cons r rest ih =>
    unfold lookupRecordsLoop
    by_cases h : r.Typ = t ∧ r.Class = c ∧ strToLower r.Name = strToLower name
    · rw [if_pos h, List.find?_cons_of_pos _ (by simp [h.1, h.2.1, h.2.2])]
    · rw [if_neg h, List.find?_cons_of_neg _ (by simpa [Decidable.not_and_iff_or_not,
        or_iff_not_imp_left] using h), ih]

/-! ## Claims -/

/-- C1: for the resource record (name "testing.kausm.in", type A, class IN,
TTL 4200, value 42 45 ff 01) encoded into a 512-octet buffer,
ResourceRecord.Encode does write the encoded domain name followed by the
14 octets 00 01 00 01 00 00 10 68 00 04 2a 45 ff 01 (the first conjunct
shows all 32 octets in the buffer), but it returns 28 = name-octets + 10,
not the 32 = name-octets + 14 octets it wrote: the final value copy does
not advance the counter, contradicting the claim and the repository's own
TestEncodeRR, which expects 32. -/
theorem C1_rrEncode_miscounts_value_octets :
    (ResourceRecord.Encode
      { Name := "testing.kausm.in", Typ := .A, Class := .IN, TTL := 4200,
        Value := [42, 69, 255, 1] } (List.replicate 512 0)).1.take 32 =
      [7, 116, 101, 115, 116, 105, 110, 103, 5, 107, 97, 117, 115, 109, 2, 105, 110, 0,
       0, 1, 0, 1, 0, 0, 16, 104, 0, 4, 42, 69, 255, 1] ∧
    (ResourceRecord.Encode
      { Name := "testing.kausm.in", Typ := .A, Class := .IN, TTL := 4200,
        Value := [42, 69, 255, 1] } (List.replicate 512 0)).2.1 = 28 ∧
    (ResourceRecord.Encode
      { Name := "testing.kausm.in", Typ := .A, Class := .IN, TTL := 4200,
        Value := [42, 69, 255, 1] } (List.replicate 512 0)).2.2 = none := by
  decide

/-- C2: decoding (into a fresh zero header, as the source tests do) the 12
octets produced by DNSHeader.Encode recovers every field of any header
whose uint16 fields are in range -- the opcode and response-code fields
range over their full enumerations by construction -- and the sample
header (ID 42, query/query, recursion desired, one question) encodes to
00 2a 01 00 00 01 00 00 00 00 00 00. -/
theorem C2_header_encode_decode_roundtrip :
    (∀ (h : DNSHeader) (buf : List Nat), h.ID < 65536 → h.QuestionsCount < 65536 →
      h.AnswersCount < 65536 → h.NameserversCount < 65536 →
      h.AdditionalRecordsCount < 65536 → 12 ≤ buf.length →
      DNSHeader.ReadFrom zeroHeader (h.Encode buf).1 = (h, none)) ∧
    (DNSHeader.Encode
      { zeroHeader with ID := 42, RecursionDesired := true, QuestionsCount := 1 }
      (List.replicate 12 0)).1 =
      [0x00, 0x2a, 0x01, 0x00, 0x00, 0x01, 0x00, 0x00, 0x00, 0x00, 0x00, 0x00] :=
  ⟨fun h buf h1 h2 h3 h4 h5 h6 => readFrom_encode h buf h1 h2 h3 h4 h5 h6, by decide⟩

/-- C2 witness: the round trip evaluated on the sample header of the
claim, with a concrete 12-octet buffer. -/
theorem C2_header_encode_decode_roundtrip_witness :
    DNSHeader.ReadFrom zeroHeader
      ((DNSHeader.Encode
        { zeroHeader with ID := 42, RecursionDesired := true, QuestionsCount := 1 }
        (List.replicate 12 0)).1) =
      ({ zeroHeader with ID := 42, RecursionDesired := true, QuestionsCount := 1 }, none) :=
  C2_header_encode_decode_roundtrip.1
    { zeroHeader with ID := 42, RecursionDesired := true, QuestionsCount := 1 }
    (List.replicate 12 0) (by decide) (by decide) (by decide) (by decide) (by decide)
    (by decide)

/-- c3name254 is a 254-octet name with labels 63/63/63/62: its encoded
form is 256 octets, above the 255-octet limit of RFC 1035. -/
def c3name254 : String :=
  String.mk (List.replicate 63 'a') ++ "." ++ String.mk (List.replicate 63 'b') ++ "." ++
  String.mk (List.replicate 63 'c') ++ "." ++ String.mk (List.replicate 62 'd')

/-- C3 counterexample: the claim says EncodeDomainName fails with
NameTooLong whenever the total encoded name (length octets plus root
terminator included) exceeds 255 octets; but for this 254-octet name the
encoded form is 256 octets (second conjunct: 256 octets written) and the
function succeeds (third conjunct: no error) -- the source checks
`len(name) > 255` against the dotted text, not the encoded form. -/
theorem C3_counterexample_encoded_256_succeeds :
    c3name254.length = 254 ∧
    (EncodeDomainName (List.replicate 256 0) c3name254).2.1 = 256 ∧
    (EncodeDomainName (List.replicate 256 0) c3name254).2.2 = none := by
  decide

/-- C3 (amended): EncodeDomainName fails with NameTooLong whenever the
dotted name itself exceeds 255 octets (so encoded forms of up to 257
octets are accepted), and with BufferTooSmall whenever the buffer has
fewer than name-length + 2 octets; both checks run before any write, so
on either error the buffer is returned unchanged with 0 octets written. -/
theorem C3_amended_early_checks_buffer_unchanged (buf : List Nat) (name : String) :
    (name.length > 255 →
      EncodeDomainName buf name = (buf, 0, some .nameTooLong)) ∧
    (name.length ≤ 255 → buf.length < name.length + 2 →
      EncodeDomainName buf name = (buf, 0, some .bufferTooSmall)) := by
  constructor
  · intro hlong
    unfold EncodeDomainName
    rw [if_pos (by omega)]
  · intro hle hsmall
    unfold EncodeDomainName
    rw [if_neg (by omega), if_pos (by omega)]

/-- C3 witness: both early-error paths evaluated on concrete inputs; the
2-octet buffer comes back unchanged in each case. -/
theorem C3_amended_early_checks_witness :
    EncodeDomainName [0, 0] (String.mk (List.replicate 256 'a')) =
      ([0, 0], 0, some .nameTooLong) ∧
    EncodeDomainName [0, 0] "kausm.in" = ([0, 0], 0, some .bufferTooSmall) :=
  ⟨(C3_amended_early_checks_buffer_unchanged [0, 0]
      (String.mk (List.replicate 256 'a'))).1 (by decide),
   (C3_amended_early_checks_buffer_unchanged [0, 0] "kausm.in").2 (by decide) (by decide)⟩

/-- C4: for every valid domain name (labels of 1 to 63 octets, at most
255 octets in all) and every buffer with room for its encoded form,
EncodeDomainName succeeds and the spec-modelled decoder reads the
encoded octets back to exactly the original name, consuming exactly the
octets EncodeDomainName reported written. -/
theorem C4_domain_name_roundtrip (name : String) (buf : List Nat)
    (hval : ∀ l ∈ splitOnDot name.data, 1 ≤ l.length ∧ l.length ≤ 63)
    (h255 : name.length ≤ 255)
    (hbuf : name.length + 2 ≤ buf.length) :
    ∃ encoded : List Nat,
      EncodeDomainName buf name = (encoded, name.length + 2, none) ∧
      DecodeDomainName encoded = .ok (name.length + 2, name) := by
  refine ⟨listWrite buf 0 (flatEnc (splitOnDot name.data) ++ [0]), ?_, ?_⟩
  · exact encodeDomainName_ok buf name h255 (fun l hl => (hval l hl).2) hbuf
  · have hdatalen : (flatEnc (splitOnDot name.data) ++ [0]).length = name.length + 2 := by
      simp only [List.length_append, List.length_cons, List.length_nil, flatEnc_length_eq]
      rfl
    have hwire : listWrite buf 0 (flatEnc (splitOnDot name.data) ++ [0]) =
        (flatEnc (splitOnDot name.data) ++ [0]) ++
          buf.drop (flatEnc (splitOnDot name.data) ++ [0]).length :=
      listWrite_zero buf _ (by omega)
    rw [hwire]
    exact decodeDomainName_encode name _ fun l hl => ⟨(hval l hl).1, (hval l hl).2⟩

/-- C4 witness: the round trip evaluated on "kausm.in" with a 10-octet
buffer. -/
theorem C4_domain_name_roundtrip_witness :
    ∃ encoded : List Nat,
      EncodeDomainName (List.replicate 10 0) "kausm.in" = (encoded, 10, none) ∧
      DecodeDomainName encoded = .ok (10, "kausm.in") :=
  C4_domain_name_roundtrip "kausm.in" (List.replicate 10 0) (by decide) (by decide)
    (by decide)

/-- C5: RespondToUDP with one answer record whose value is 4 octets: the
datagram handed to the transport is 25 octets and stops after the 00 04
value-length field -- the 4 value octets the record codec wrote into the
buffer are cut off, because the record codec's return value undercounts
(see C1) -- so the write length is not the number of octets actually
encoded. The second conjunct shows the same record's true wire form is 17
octets ending in the value 01 02 03 04; the datagram carries only its
first 13. The section counts themselves are set correctly (AnswersCount
1 in the returned header). -/
theorem C5_respond_write_shorter_than_encoded :
    DNSServer.RespondToUDP { laddr := "", records := [] } zeroHeader []
      [{ Name := "a", Typ := .A, Class := .IN, TTL := 0, Value := [1, 2, 3, 4] }] [] [] =
      .ok ({ zeroHeader with AnswersCount := 1 },
        [0, 0, 0, 0, 0, 0, 0, 1, 0, 0, 0, 0, 1, 97, 0, 0, 1, 0, 1, 0, 0, 0, 0, 0, 4]) ∧
    (ResourceRecord.Encode
      { Name := "a", Typ := .A, Class := .IN, TTL := 0, Value := [1, 2, 3, 4] }
      (List.replicate 500 0)).1.take 17 =
      [1, 97, 0, 0, 1, 0, 1, 0, 0, 0, 0, 0, 4, 1, 2, 3, 4] := by
  decide

/-- C7: a well-formed standard query (QR=query, opcode=query, one
question) for "nope.kausm.in" type A -- a name the server is
authoritative for (second conjunct) with no matching record (third
conjunct) -- is answered with a 12-octet response whose response-code
nibble (low nibble of octet 3) is 4 = NotImplemented and whose question
count is 0, not the NameError the claim requires: the handler sets the
header's message type to Response before testing `Type != QRQuery`, so
the guard always fires and the resolution loop is unreachable. -/
theorem C7_authoritative_miss_gets_notImplemented :
    DNSServer.handleUDPPacket
      { laddr := "",
        records := [{ Name := "test.kausm.in", Typ := .A, Class := .IN, TTL := 600, Value := [134, 209, 148, 50] }] }
      ([0, 7, 0, 0, 0, 1, 0, 0, 0, 0, 0, 0] ++
       [4, 110, 111, 112, 101, 5, 107, 97, 117, 115, 109, 2, 105, 110, 0, 0, 1, 0, 1]) =
      some [0, 7, 128, 4, 0, 0, 0, 0, 0, 0, 0, 0] ∧
    strHasSuffix (strToLower "nope.kausm.in") "kausm.in" = true ∧
    DNSServer.LookupRecords
      { laddr := "",
        records := [{ Name := "test.kausm.in", Typ := .A, Class := .IN, TTL := 600, Value := [134, 209, 148, 50] }] }
      .A .IN "nope.kausm.in" = none := by
  decide

/-- C8: LookupRecords is exactly an in-order first-match scan of the
record table: it returns the first record agreeing with the query on the
type descriptor, the class descriptor, and the lower-cased name, and
none when no record matches (List.find? semantics). -/
theorem C8_lookup_is_first_match_scan (srv : DNSServer) (t : QTYPE) (c : QCLASS)
    (name : String) :
    srv.LookupRecords t c name =
      srv.records.find? fun r =>
        decide (r.Typ = t) && decide (r.Class = c) &&
        decide (strToLower r.Name = strToLower name) := by
  unfold DNSServer.LookupRecords
  exact lookupRecordsLoop_eq_find? srv.records t c name

/-- C9: DNSHeader.ReadFrom is not atomic on failure. First input: flags
word B8 00 carries opcode 7, unknown, so ReadFrom errors -- but the
returned header already has ID 0x1234 and message-type Response written
into it (and nothing later: the question count stays 0 although the
input says 9). Second input: flags word 8F 8F fails only on response
code 15, and the returned header additionally has the opcode and all
four flag fields overwritten; again the counts remain unread. -/
theorem C9_readFrom_partial_update_on_error :
    DNSHeader.ReadFrom zeroHeader [0x12, 0x34, 0xB8, 0x00, 0, 9, 0, 0, 0, 0, 0, 0] =
      ({ zeroHeader with ID := 0x1234, MsgType := QRResponse },
        some (.invalidOpCode 7)) ∧
    { zeroHeader with ID := 0x1234, MsgType := QRResponse } ≠ zeroHeader ∧
    DNSHeader.ReadFrom zeroHeader [0x56, 0x78, 0x8F, 0x8F, 0, 9, 0, 0, 0, 0, 0, 0] =
      ({ zeroHeader with
          ID := 0x5678
          MsgType := QRResponse
          OpCode := .IQueryOp
          IsAuthoritative := true
          IsTruncated := true
          RecursionDesired := true
          RecursionAvailable := true },
        some (.invalidResponseCode 15)) ∧
    { zeroHeader with
        ID := 0x5678
        MsgType := QRResponse
        OpCode := OpCode.IQueryOp
        IsAuthoritative := true
        IsTruncated := true
        RecursionDesired := true
        RecursionAvailable := true } ≠ zeroHeader := by
  decide

/-- C10 counterexample: the claim says every name with a leading dot is
encoded successfully; the name "." followed by a 64-octet label has a
leading dot, fits a 512-octet buffer, and still fails (LabelTooLong). -/
theorem C10_counterexample_leading_dot_can_fail :
    (EncodeDomainName (List.replicate 512 0)
      (String.mk ('.' :: List.replicate 64 'a'))).2.2 = some .labelTooLong := by
  decide

/-- C10 (amended): EncodeDomainName enforces no 1-octet lower bound on
labels: every name whose labels are at most 63 octets (empty labels from
leading, trailing or doubled dots included), of total length at most
255, encodes successfully into any buffer with name-length + 2 octets of
room, emitting for each label its length octet then its octets -- a
single zero octet for each empty label (flatEnc maps an empty label to
its bare zero length octet); in particular "" yields 2 octets 00 00. -/
theorem C10_amended_no_lower_bound_on_labels (name : String) (buf : List Nat)
    (h255 : name.length ≤ 255)
    (h63 : ∀ l ∈ splitOnDot name.data, l.length ≤ 63)
    (hbuf : name.length + 2 ≤ buf.length) :
    (EncodeDomainName buf name =
      (listWrite buf 0 (flatEnc (splitOnDot name.data) ++ [0]), name.length + 2, none)) ∧
    EncodeDomainName (List.replicate 2 0) "" = ([0, 0], 2, none) :=
  ⟨encodeDomainName_ok buf name h255 h63 hbuf, by decide⟩

/-- C10 witness: the amended claim evaluated on the doubled-dot name ".."
(three empty labels, wire form 00 00 00 00) and a 4-octet buffer. -/
theorem C10_amended_witness :
    (EncodeDomainName (List.replicate 4 0) ".." =
      (listWrite (List.replicate 4 0) 0 (flatEnc (splitOnDot (String.data "..")) ++ [0]),
        4, none)) ∧
    EncodeDomainName (List.replicate 2 0) "" = ([0, 0], 2, none) :=
  C10_amended_no_lower_bound_on_labels ".." (List.replicate 4 0) (by decide) (by decide)
    (by decide)

/-! ## Claim C6 helpers -/

/-- zeroCounts h is the header RespondToUDP derives from h when all four
section arguments are empty. -/
def zeroCounts (h : DNSHeader) : DNSHeader :=
  { h with
    QuestionsCount := 0
    AnswersCount := 0
    NameserversCount := 0
    AdditionalRecordsCount := 0 }

theorem respondToUDP_nil (srv : DNSServer) (h : DNSHeader) :
    srv.RespondToUDP h [] [] [] [] =
      .ok (zeroCounts h,
        (DNSHeader.Encode (zeroCounts h) (List.replicate 512 0)).1.take 12) := rfl

theorem take12_cons (a b c d e f g1 h1 i j k m : Nat) (l : List Nat) :
    (a :: b :: c :: d :: e :: f :: g1 :: h1 :: i :: j :: k :: m :: l).take 12 =
    [a, b, c, d, e, f, g1, h1, i, j, k, m] := rfl

theorem bitsFun_notImplemented_nibble : ∀ (op : OpCode) (rd : Bool),
    bitsFun QRResponse op false false rd false .NotImplemented % 256 % 16 = 4 := by
  decide

/-- C6: whenever the decoded request header is not a standard query
(message type not Query, or opcode not Query), the server's reply is the
bare 12-octet header: response-code nibble 4 = NotImplemented (low
nibble of octet 3), question count 0 (octets 4-5), answer count 0
(octets 6-7), and no bytes after the header -- no question is echoed.
(The handler in fact takes this branch for every request, because it
stamps the header as a response before testing the message type; the
claim's hypothesis is therefore not even needed, and is kept only
because the claim states it.) -/
theorem C6_unsupported_query_empty_response (srv : DNSServer) (buf : List Nat)
    (h : DNSHeader)
    (hread : DNSHeader.ReadFrom zeroHeader buf = (h, none))
    (_hcond : h.MsgType ≠ QRQuery ∨ h.OpCode ≠ OpCode.QueryOp) :
    ∃ b0 b1 b2 b3,
      srv.handleUDPPacket buf = some [b0, b1, b2, b3, 0, 0, 0, 0, 0, 0, 0, 0] ∧
      b3 % 16 = 4 := by
  unfold DNSServer.handleUDPPacket
  rw [hread]
  dsimp only
  rw [if_pos (Or.inl (by simp [setDefaultResponseHeaders, QRResponse, QRQuery]))]
  rw [respondToUDP_nil]
  dsimp only
  rw [encode_bytes _ _ (by simp)]
  rw [take12_cons]
  dsimp only [setDefaultResponseHeaders, zeroCounts, headerBitsOf]
  exact ⟨h.ID / 256 % 256, h.ID % 256,
    bitsFun QRResponse h.OpCode false false h.RecursionDesired false
      ResponseCode.NotImplemented / 256 % 256,
    bitsFun QRResponse h.OpCode false false h.RecursionDesired false
      ResponseCode.NotImplemented % 256,
    by norm_num,
    bitsFun_notImplemented_nibble h.OpCode h.RecursionDesired⟩

/-- C6 witness: a status-opcode request (flags word 10 00, opcode 2) to a
server with an empty table; the reply is a bare header with
response-code nibble 4. -/
theorem C6_unsupported_query_empty_response_witness :
    ∃ b0 b1 b2 b3,
      DNSServer.handleUDPPacket { laddr := "", records := [] }
        [0, 1, 16, 0, 0, 0, 0, 0, 0, 0, 0, 0] =
        some [b0, b1, b2, b3, 0, 0, 0, 0, 0, 0, 0, 0] ∧ b3 % 16 = 4 :=
  C6_unsupported_query_empty_response { laddr := "", records := [] } _
    { zeroHeader with ID := 1, OpCode := .StatusOp } (by decide) (Or.inr (by decide))
